import Mathlib

/-!
Verification of `scrapinghub/client/projects.py`: the `Projects` collection,
the `Project` object and its `Settings` proxy.

Python values, identifiers and the remote store are shallowly embedded.
Components of the repository that are imported by `projects.py` but whose
source is not available (`parse_project_id` from `client/utils.py`, the
`_Proxy` machinery and the hubstorage settings resource) are modelled from
the specification; their doc comments say so explicitly.
-/

/-- A Python value that can be passed as a project id: an integer or a string. -/
inductive PyVal
  | int (n : Int)
  | str (s : String)
  deriving DecidableEq, Repr

/-- A scalar JSON-ish value stored in project settings and summaries. -/
inductive JVal
  | int (n : Int)
  | bool (b : Bool)
  | str (s : String)
  deriving DecidableEq, Repr

/-- Numeric value of a decimal digit character, `none` for non-digits. -/
def digitVal (c : Char) : Option Nat :=
  if c.isDigit then some (c.toNat - 48) else none

/-- Left-to-right accumulation of decimal digits; fails on a non-digit. -/
def parseDigitsAux : List Char → Nat → Option Nat
  | [], acc => some acc
  | c :: cs, acc =>
    match digitVal c with
    | some d => parseDigitsAux cs (acc * 10 + d)
    | none => none

/-- Parse a non-empty all-digit character list as a natural number. -/
def parseDigitsList : List Char → Option Nat
  | [] => none
  | c :: cs => parseDigitsAux (c :: cs) 0

/-- Parse a string as a natural number (decimal digits only). -/
def parseDigits (s : String) : Option Nat :=
  parseDigitsList s.data

/-- Decimal digit characters of a natural number, most significant first.
This embeds Python's `str` applied to a non-negative integer. -/
def natDigits (n : Nat) : List Char :=
  if n < 10 then [Char.ofNat (n + 48)]
  else natDigits (n / 10) ++ [Char.ofNat (n % 10 + 48)]
decreasing_by exact Nat.div_lt_self (by omega) (by omega)

/-- Python `str` of a natural number. -/
def pyStrNat (n : Nat) : String :=
  String.mk (natDigits n)

/-- Python `str` of an integer: a minus sign followed by digits when
negative, just the digits otherwise. -/
def pyStrInt (x : Int) : String :=
  if x < 0 then String.mk ([Char.ofNat 45] ++ natDigits x.natAbs)
  else String.mk (natDigits x.natAbs)

/-- Modelled from the spec: whether (and how) a project id input can be
"parsed to a non-negative integer".  An integer input qualifies exactly
when it is non-negative; a string input qualifies exactly when it is a
non-empty string of decimal digits. -/
def parseNonNegInt : PyVal → Option Nat
  | .int x => if 0 ≤ x then some x.natAbs else none
  | .str s => parseDigits s

/-- Errors raised by this client layer. -/
inductive ClientError
  | invalidInput (msg : String)
  deriving DecidableEq, Repr

/-- Modelled from the spec: `parse_project_id` from `scrapinghub/client/utils.py`
(not in the available sources).  Fails with an `InvalidInput`-class error when
the input cannot be parsed to a non-negative integer, and returns the parsed
numeric id otherwise. -/
def parse_project_id (v : PyVal) : Except ClientError Nat :=
  match parseNonNegInt v with
  | some n => Except.ok n
  | none => Except.error (ClientError.invalidInput "project id must be a non-negative integer")

/-- The connection object of the underlying client: the project ids it
reports for the authenticated user. -/
structure Connection where
  project_ids : List Int
  deriving DecidableEq

/-- Per-project job statistics held by the remote hubstorage service:
project id, pending, running, finished counts and the capacity flag. -/
structure HSProjects where
  jobstats : List (Int × Nat × Nat × Nat × Bool)
  deriving DecidableEq

/-- The hubstorage client of the underlying client library. -/
structure HSClient where
  projects : HSProjects
  deriving DecidableEq

/-- The underlying HTTP-backed client this layer delegates to. -/
structure Client where
  connection : Connection
  hsclient : HSClient
  deriving DecidableEq

/-- Sub-resource `Jobs(client, projectid)`. -/
structure Jobs where
  client : Client
  projectid : Nat
  deriving DecidableEq

/-- Sub-resource `Spiders(client, projectid)`. -/
structure Spiders where
  client : Client
  projectid : Nat
  deriving DecidableEq

/-- Proxied sub-resource `Activity(_Activity, client, projectid)`. -/
structure Activity where
  client : Client
  projectid : Nat
  deriving DecidableEq

/-- Proxied sub-resource `Collections(_Collections, client, projectid)`. -/
structure Collections where
  client : Client
  projectid : Nat
  deriving DecidableEq

/-- Proxied sub-resource `Frontiers(_HSFrontier, client, projectid)`. -/
structure Frontiers where
  client : Client
  projectid : Nat
  deriving DecidableEq

/-- Proxied sub-resource `Settings(_Settings, client, projectid)`. -/
structure Settings where
  client : Client
  projectid : Nat
  deriving DecidableEq

/-- A `Project` object: the fields assigned by `Project.__init__`. -/
structure Project where
  key : String
  client : Client
  jobs : Jobs
  spiders : Spiders
  activity : Activity
  collections : Collections
  frontiers : Frontiers
  settings : Settings
  deriving DecidableEq

/-- `Project.__init__(client, projectid)`: sets `key = str(projectid)` and
constructs the sub-resources for the same client and project id. -/
def Project.init (client : Client) (projectid : Nat) : Project :=
  { key := pyStrNat projectid
    client := client
    jobs := { client := client, projectid := projectid }
    spiders := { client := client, projectid := projectid }
    activity := { client := client, projectid := projectid }
    collections := { client := client, projectid := projectid }
    frontiers := { client := client, projectid := projectid }
    settings := { client := client, projectid := projectid } }

/-- The `Projects` collection: its only field is the client reference. -/
structure Projects where
  client : Client
  deriving DecidableEq

/-- `Projects.get(projectid)`: `Project(self._client, parse_project_id(projectid))`;
a parse failure propagates and no project object is constructed. -/
def Projects.get (p : Projects) (v : PyVal) : Except ClientError Project :=
  match parse_project_id v with
  | Except.ok pid => Except.ok (Project.init p.client pid)
  | Except.error e => Except.error e

/-- `Projects.list()`: `self._client._connection.project_ids()`. -/
def Projects.projectList (p : Projects) : List Int :=
  p.client.connection.project_ids

/-- A Python iterator, embedded as the sequence of values it will yield. -/
structure Iterator (α : Type) where
  remaining : List α
  deriving DecidableEq

/-- `iter(l)` applied to a list. -/
def iterOf {α : Type} (l : List α) : Iterator α := ⟨l⟩

/-- `list(it)`: the values an iterator yields, in order. -/
def Iterator.toList {α : Type} (it : Iterator α) : List α := it.remaining

/-- `Projects.iter()`: `iter(self.list())`. -/
def Projects.iter (p : Projects) : Iterator Int :=
  iterOf (Projects.projectList p)

/-- The dictionary returned by the remote service for one project summary:
exactly the keys `project`, `pending`, `running`, `finished`, `has_capacity`. -/
def mkJobSummary (project : Int) (pending running finished : Nat) (cap : Bool) :
    List (String × JVal) :=
  [("project", JVal.int project),
   ("pending", JVal.int pending),
   ("running", JVal.int running),
   ("finished", JVal.int finished),
   ("has_capacity", JVal.bool cap)]

/-- Modelled from the spec: `jobsummaries` of the hubstorage projects resource
(not in the available sources).  Returns one summary dictionary per project,
each with the fixed keys of the remote response schema. -/
def HSProjects.jobsummaries (h : HSProjects) : List (List (String × JVal)) :=
  h.jobstats.map fun q => mkJobSummary q.1 q.2.1 q.2.2.1 q.2.2.2.1 q.2.2.2.2

/-- `Projects.summary()`: `self._client._hsclient.projects.jobsummaries(**params)`. -/
def Projects.summary (p : Projects) : List (List (String × JVal)) :=
  p.client.hsclient.projects.jobsummaries

/-! ## The settings mapping and the remote store

The `Settings` class extends `_Proxy` (from `client/utils.py`) and delegates
to the hubstorage settings resource; neither is in the available sources, so
the cache/pending/save/liveget behaviour below is modelled from the spec. -/

/-- A settings mapping: string keys to scalar values, in insertion order. -/
abbrev SettingsMap : Type := List (String × JVal)

/-- Lookup of a key in a settings mapping (first occurrence wins). -/
def lookupKV : List (String × JVal) → String → Option JVal
  | [], _ => none
  | (k', v) :: rest, k => if k' = k then some v else lookupKV rest k

/-- Update a key in a settings mapping, appending it when absent. -/
def setKV : List (String × JVal) → String → JVal → List (String × JVal)
  | [], k, v => [(k, v)]
  | (k', v') :: rest, k, v =>
    if k' = k then (k, v) :: rest else (k', v') :: setKV rest k v

/-- Apply a batch of mutations to a mapping, left to right. -/
def applyAll (m ps : List (String × JVal)) : List (String × JVal) :=
  ps.foldl (fun acc q => setKV acc q.1 q.2) m

/-- Modelled from the spec: the remote settings store, with the mapping it
holds and the set of read-only keys whose mutation it rejects. -/
structure Remote where
  data : List (String × JVal)
  readonly : List String
  deriving DecidableEq

/-- A validation error raised by the remote store. -/
inductive RemoteError
  | readOnlySetting (k : String)
  deriving DecidableEq, Repr

/-- Modelled from the spec: the remote store's handling of a batch of
mutations.  It rejects the batch with a validation error when some mutated
key is read-only, and otherwise applies the batch to its mapping. -/
def Remote.trySave (r : Remote) (ps : List (String × JVal)) :
    Except RemoteError Remote :=
  match ps.find? (fun q => decide (q.1 ∈ r.readonly)) with
  | some q => Except.error (RemoteError.readOnlySetting q.1)
  | none => Except.ok { r with data := applyAll r.data ps }

/-- Modelled from the spec: the mutable state behind a `Settings` proxy —
a lazily populated local cache and the writes batched since the last save. -/
structure SettingsState where
  cache : Option (List (String × JVal))
  pending : List (String × JVal)
  deriving DecidableEq

/-- The state of a freshly constructed `Settings` proxy. -/
def SettingsState.initial : SettingsState :=
  { cache := none, pending := [] }

/-- Modelled from the spec: `settings[k] = v` records the write locally —
in the batch of pending mutations, and in the cache when it is populated. -/
def SettingsState.setitem (s : SettingsState) (k : String) (v : JVal) :
    SettingsState :=
  { cache :=
      match s.cache with
      | some m => some (setKV m k v)
      | none => none
    pending := setKV s.pending k v }

/-- Modelled from the spec: `settings.save()` flushes the pending mutations
to the remote store, propagating its validation error unmodified; on success
the batch is cleared. -/
def SettingsState.save (s : SettingsState) (r : Remote) :
    Except RemoteError (SettingsState × Remote) :=
  match r.trySave s.pending with
  | Except.error e => Except.error e
  | Except.ok upd => Except.ok ({ s with pending := [] }, upd)

/-- Modelled from the spec: `settings.expire()` invalidates the local cache. -/
def SettingsState.expire (s : SettingsState) : SettingsState :=
  { s with cache := none }

/-- Modelled from the spec: `settings.liveget(k)` reads the value straight
from the remote store, bypassing the local cache. -/
def SettingsState.liveget (s : SettingsState) (r : Remote) (k : String) :
    Option JVal × SettingsState :=
  (lookupKV r.data k, s)

/-- Modelled from the spec: lazy population of the local cache — return the
cached mapping, fetching it from the remote store when absent. -/
def SettingsState.fetch (s : SettingsState) (r : Remote) :
    List (String × JVal) × SettingsState :=
  match s.cache with
  | some m => (m, s)
  | none => (r.data, { s with cache := some r.data })

/-- Modelled from the spec: `settings.list()` returns the keys of the cached
settings mapping, populating the cache first when needed. -/
def SettingsState.listKeys (s : SettingsState) (r : Remote) :
    List String × SettingsState :=
  ((s.fetch r).1.map Prod.fst, (s.fetch r).2)

/-- Modelled from the spec: `settings[k]` reads from the cached mapping,
populating the cache first when needed. -/
def SettingsState.getitem (s : SettingsState) (r : Remote) (k : String) :
    Option JVal × SettingsState :=
  (lookupKV (s.fetch r).1 k, (s.fetch r).2)

/-! ## Operations of this layer acting on a constructed project

State changes in this layer happen only behind the settings proxy; the
configuration below threads them explicitly past the `Project` object, as
the state-passing reading of the Python methods. -/

/-- One operation of this layer on a project's settings proxy. -/
inductive LayerOp
  | setitem (k : String) (v : JVal)
  | save
  | expire
  | liveget (k : String)
  | listKeys
  | getitem (k : String)

/-- A constructed project together with its settings state and the remote
store it talks to. -/
structure Config where
  proj : Project
  st : SettingsState
  remote : Remote

/-- Execute one layer operation, threading the settings state and the
remote store; a failed save leaves everything unchanged. -/
def Config.step (c : Config) (op : LayerOp) : Config :=
  match op with
  | LayerOp.setitem k v => { c with st := c.st.setitem k v }
  | LayerOp.save =>
    match c.st.save c.remote with
    | Except.ok (st2, r2) => { c with st := st2, remote := r2 }
    | Except.error _ => c
  | LayerOp.expire => { c with st := c.st.expire }
  | LayerOp.liveget k => { c with st := (c.st.liveget c.remote k).2 }
  | LayerOp.listKeys => { c with st := (c.st.listKeys c.remote).2 }
  | LayerOp.getitem k => { c with st := (c.st.getitem c.remote k).2 }

/-- One method call on a `Projects` collection. -/
inductive ProjectsOp
  | get (v : PyVal)
  | listIds
  | iterIds
  | summaries

/-- The value returned by a `Projects` method. -/
inductive ProjectsResult
  | gotProject (r : Except ClientError Project)
  | ids (l : List Int)
  | iterRes (it : Iterator Int)
  | summaryRes (s : List (List (String × JVal)))

/-- State-passing reading of the `Projects` methods: each returns its result
together with the post-state of the `Projects` object (none of the method
bodies assigns to `self`). -/
def Projects.step (p : Projects) (op : ProjectsOp) : Projects × ProjectsResult :=
  match op with
  | ProjectsOp.get v => (p, ProjectsResult.gotProject (Projects.get p v))
  | ProjectsOp.listIds => (p, ProjectsResult.ids (Projects.projectList p))
  | ProjectsOp.iterIds => (p, ProjectsResult.iterRes (Projects.iter p))
  | ProjectsOp.summaries => (p, ProjectsResult.summaryRes (Projects.summary p))

/-! ## Auxiliary lemmas: decimal printing and parsing round-trip -/

theorem digitVal_ofNat_digit : ∀ d, d < 10 → digitVal (Char.ofNat (d + 48)) = some d := by
  decide

theorem parseDigitsAux_append (l1 l2 : List Char) (acc : Nat) :
    parseDigitsAux (l1 ++ l2) acc =
      (parseDigitsAux l1 acc).bind (fun a => parseDigitsAux l2 a) := by
  induction l1 generalizing acc with
  | nil => rfl
  | cons c cs ih =>
    simp only [List.cons_append, parseDigitsAux]
    cases digitVal c with
    | some d => exact ih _
    | none => rfl

theorem parseDigitsAux_natDigits (n : Nat) :
    ∀ acc, parseDigitsAux (natDigits n) acc =
      some (acc * 10 ^ (natDigits n).length + n) := by
  induction n using Nat.strong_induction_on with
  | _ n ih =>
    intro acc
    rw [natDigits]
    by_cases h : n < 10
    · simp only [if_pos h, parseDigitsAux, digitVal_ofNat_digit n h,
        List.length_singleton, pow_one]
    · have hdiv : n / 10 < n := Nat.div_lt_self (by omega) (by omega)
      simp only [if_neg h, parseDigitsAux_append, ih (n / 10) hdiv, Option.some_bind,
        parseDigitsAux, digitVal_ofNat_digit (n % 10) (Nat.mod_lt _ (by omega)),
        List.length_append, List.length_singleton, pow_succ]
      congr 1
      generalize (10 : Nat) ^ (natDigits (n / 10)).length = t
      have hmod : 10 * (n / 10) + n % 10 = n := Nat.div_add_mod n 10
      have hmul : acc * (t * 10) = acc * t * 10 := by ring
      omega

theorem natDigits_ne_nil (n : Nat) : natDigits n ≠ [] := by
  rw [natDigits]
  split <;> simp

theorem parseDigitsList_natDigits (n : Nat) : parseDigitsList (natDigits n) = some n := by
  have h := parseDigitsAux_natDigits n 0
  cases hl : natDigits n with
  | nil => exact absurd hl (natDigits_ne_nil n)
  | cons c cs =>
    rw [hl] at h
    simp only [parseDigitsList, h, Nat.zero_mul, Nat.zero_add]

theorem parseDigits_pyStrNat (n : Nat) : parseDigits (pyStrNat n) = some n :=
  parseDigitsList_natDigits n

theorem parseDigitsList_minus (ds : List Char) :
    parseDigitsList (Char.ofNat 45 :: ds) = none := by
  have h45 : digitVal (Char.ofNat 45) = none := by decide
  simp only [parseDigitsList, parseDigitsAux, h45]

theorem parseNonNegInt_int_str (x : Int) :
    parseNonNegInt (PyVal.int x) = parseNonNegInt (PyVal.str (pyStrInt x)) := by
  by_cases h : x < 0
  · have h2 : ¬ 0 ≤ x := by omega
    simp only [parseNonNegInt, pyStrInt, if_pos h, if_neg h2]
    have : parseDigits (String.mk ([Char.ofNat 45] ++ natDigits x.natAbs)) =
        parseDigitsList (Char.ofNat 45 :: natDigits x.natAbs) := rfl
    rw [this, parseDigitsList_minus]
  · have h2 : 0 ≤ x := by omega
    simp only [parseNonNegInt, pyStrInt, if_neg h, if_pos h2]
    exact (parseDigits_pyStrNat x.natAbs).symm

/-! ## Claim theorems -/

/-- Claim C1: for every input project id that cannot be parsed to a
non-negative integer, `Projects.get` fails with an `InvalidInput`-class
error and constructs no `Project` object. -/
theorem Projects.get_invalid_input (p : Projects) (v : PyVal)
    (h : parseNonNegInt v = none) :
    Projects.get p v =
      Except.error (ClientError.invalidInput "project id must be a non-negative integer") := by
  unfold Projects.get parse_project_id
  rw [h]

theorem Projects.get_invalid_input_witness :
    parseNonNegInt (PyVal.str "spam") = none ∧
      Projects.get ⟨⟨⟨[1, 2]⟩, ⟨⟨[]⟩⟩⟩⟩ (PyVal.str "spam") =
        Except.error (ClientError.invalidInput "project id must be a non-negative integer") :=
  ⟨by decide, Projects.get_invalid_input ⟨⟨⟨[1, 2]⟩, ⟨⟨[]⟩⟩⟩⟩ (PyVal.str "spam") (by decide)⟩

/-- Claim C2: for every integer `x`, `projects.get(x)` and
`projects.get(str(x))` yield the same result — in particular equal
`Project` objects with the same key and sub-resources. -/
theorem Projects.get_int_str_equiv (p : Projects) (x : Int) :
    Projects.get p (PyVal.int x) = Projects.get p (PyVal.str (pyStrInt x)) := by
  unfold Projects.get parse_project_id
  rw [parseNonNegInt_int_str x]

/-- Claim C8: `projects.list()` equals, in content, `list(projects.iter())`. -/
theorem Projects.iter_toList_eq_projectList (p : Projects) :
    (Projects.iter p).toList = Projects.projectList p := rfl

/-! ## Auxiliary lemmas: association-list update and lookup -/

theorem lookupKV_setKV_self (m : List (String × JVal)) (k : String) (v : JVal) :
    lookupKV (setKV m k v) k = some v := by
  induction m with
  | nil => simp [setKV, lookupKV]
  | cons q rest ih =>
    obtain ⟨k', v'⟩ := q
    by_cases h : k' = k
    · simp [setKV, lookupKV, h]
    · simp [setKV, lookupKV, h, ih]

theorem lookupKV_setKV_ne (m : List (String × JVal)) (a k : String) (b : JVal)
    (h : a ≠ k) : lookupKV (setKV m a b) k = lookupKV m k := by
  induction m with
  | nil => simp [setKV, lookupKV, h]
  | cons q rest ih =>
    obtain ⟨k', v'⟩ := q
    by_cases h2 : k' = a
    · subst h2
      simp [setKV, lookupKV, h]
    · simp only [setKV, if_neg h2]
      by_cases h3 : k' = k
      · simp [lookupKV, h3]
      · simp [lookupKV, h3, ih]

theorem mem_keys_setKV (m : List (String × JVal)) (a k : String) (b : JVal) :
    k ∈ (setKV m a b).map Prod.fst ↔ k ∈ m.map Prod.fst ∨ k = a := by
  induction m with
  | nil => simp [setKV, eq_comm]
  | cons q rest ih =>
    obtain ⟨k', v'⟩ := q
    by_cases h : k' = a
    · subst h
      simp [setKV, eq_comm]
      tauto
    · simp [setKV, h, ih]
      tauto

theorem nodup_keys_setKV (m : List (String × JVal)) (a : String) (b : JVal)
    (h : (m.map Prod.fst).Nodup) : ((setKV m a b).map Prod.fst).Nodup := by
  induction m with
  | nil => simp [setKV]
  | cons q rest ih =>
    obtain ⟨k', v'⟩ := q
    simp only [List.map_cons, List.nodup_cons] at h
    by_cases hh : k' = a
    · subst hh
      simpa [setKV] using h
    · simp only [setKV, if_neg hh, List.map_cons, List.nodup_cons]
      refine ⟨?_, ih h.2⟩
      rw [mem_keys_setKV]
      push_neg
      exact ⟨h.1, hh⟩

theorem applyAll_cons (m : List (String × JVal)) (q : String × JVal)
    (ps : List (String × JVal)) :
    applyAll m (q :: ps) = applyAll (setKV m q.1 q.2) ps := rfl

theorem lookupKV_applyAll_not_mem (ps : List (String × JVal)) (k : String) :
    ∀ m, k ∉ ps.map Prod.fst → lookupKV (applyAll m ps) k = lookupKV m k := by
  induction ps with
  | nil => intro m _; rfl
  | cons q rest ih =>
    intro m h
    simp only [List.map_cons, List.mem_cons] at h
    push_neg at h
    rw [applyAll_cons, ih _ h.2, lookupKV_setKV_ne _ _ _ _ (fun e => h.1 e.symm)]

theorem lookupKV_applyAll_of_lookup (ps : List (String × JVal)) (k : String) (v : JVal) :
    ∀ m, (ps.map Prod.fst).Nodup → lookupKV ps k = some v →
      lookupKV (applyAll m ps) k = some v := by
  induction ps with
  | nil => intro m _ h; simp [lookupKV] at h
  | cons q rest ih =>
    intro m hnd h
    obtain ⟨a, b⟩ := q
    simp only [List.map_cons, List.nodup_cons] at hnd
    rw [applyAll_cons]
    by_cases hk : a = k
    · subst hk
      simp only [lookupKV, if_pos, Option.some.injEq] at h
      subst h
      rw [lookupKV_applyAll_not_mem _ _ _ hnd.1]
      exact lookupKV_setKV_self _ _ _
    · simp only [lookupKV, if_neg hk] at h
      exact ih _ hnd.2 h

/-- Claim C3: a write accepted by the remote store round-trips — after
`settings[k] = v; save(); expire()`, `liveget(k)` returns `v`.  The
hypotheses say the pending batch has no duplicate keys (an invariant of the
operations) and that the remote store accepts every mutation in the batch. -/
theorem SettingsState.setitem_save_liveget_roundtrip (s : SettingsState) (r : Remote)
    (k : String) (v : JVal)
    (hnd : (s.pending.map Prod.fst).Nodup)
    (hacc : ∀ q ∈ setKV s.pending k v, q.1 ∉ r.readonly) :
    ∃ s2 r2, SettingsState.save (s.setitem k v) r = Except.ok (s2, r2) ∧
      ((s2.expire).liveget r2 k).1 = some v := by
  have hfind : (setKV s.pending k v).find? (fun q => decide (q.1 ∈ r.readonly)) = none := by
    rw [List.find?_eq_none]
    intro q hq
    simpa using hacc q hq
  have hsave : Remote.trySave r (SettingsState.setitem s k v).pending =
      Except.ok { r with data := applyAll r.data (setKV s.pending k v) } := by
    unfold Remote.trySave
    have hp : (SettingsState.setitem s k v).pending = setKV s.pending k v := rfl
    rw [hp, hfind]
  refine ⟨{ s.setitem k v with pending := [] },
    { r with data := applyAll r.data (setKV s.pending k v) }, ?_, ?_⟩
  · unfold SettingsState.save
    rw [hsave]
  · show lookupKV (applyAll r.data (setKV s.pending k v)) k = some v
    exact lookupKV_applyAll_of_lookup _ k v _ (nodup_keys_setKV _ _ _ hnd)
      (lookupKV_setKV_self _ _ _)

theorem SettingsState.setitem_save_liveget_roundtrip_witness :
    ((SettingsState.initial.pending.map Prod.fst).Nodup ∧
      (∀ q ∈ setKV SettingsState.initial.pending "job_runtime_limit" (JVal.int 24),
        q.1 ∉ (Remote.mk [] []).readonly)) ∧
    ∃ s2 r2,
      SettingsState.save
        (SettingsState.initial.setitem "job_runtime_limit" (JVal.int 24))
        (Remote.mk [] []) = Except.ok (s2, r2) ∧
      ((s2.expire).liveget r2 "job_runtime_limit").1 = some (JVal.int 24) :=
  ⟨⟨by decide, by decide⟩,
    SettingsState.setitem_save_liveget_roundtrip SettingsState.initial (Remote.mk [] [])
      "job_runtime_limit" (JVal.int 24) (by decide) (by decide)⟩

/-- Claim C4: when the remote store rejects the pending batch with a
validation error, `save` returns exactly that error, never dropping it. -/
theorem SettingsState.save_propagates_remote_error (s : SettingsState) (r : Remote)
    (e : RemoteError) (h : r.trySave s.pending = Except.error e) :
    SettingsState.save s r = Except.error e := by
  unfold SettingsState.save
  rw [h]

theorem SettingsState.save_propagates_remote_error_witness :
    Remote.trySave (Remote.mk [] ["botgroups"]) [("botgroups", JVal.str "g1")] =
      Except.error (RemoteError.readOnlySetting "botgroups") ∧
    SettingsState.save (SettingsState.mk none [("botgroups", JVal.str "g1")])
        (Remote.mk [] ["botgroups"]) =
      Except.error (RemoteError.readOnlySetting "botgroups") :=
  ⟨rfl, SettingsState.save_propagates_remote_error
    (SettingsState.mk none [("botgroups", JVal.str "g1")])
    (Remote.mk [] ["botgroups"]) (RemoteError.readOnlySetting "botgroups") rfl⟩

/-- Claim C5: once the cache is populated, `settings.list()` returns exactly
the keys of the cached settings mapping — no more and no fewer. -/
theorem SettingsState.listKeys_cached (s : SettingsState) (r : Remote)
    (m : List (String × JVal)) (h : s.cache = some m) :
    (SettingsState.listKeys s r).1 = m.map Prod.fst ∧
      ∀ k, k ∈ (SettingsState.listKeys s r).1 ↔ k ∈ m.map Prod.fst := by
  have hs : (SettingsState.listKeys s r).1 = m.map Prod.fst := by
    unfold SettingsState.listKeys SettingsState.fetch
    rw [h]
  exact ⟨hs, fun k => by rw [hs]⟩

theorem SettingsState.listKeys_cached_witness :
    (SettingsState.mk (some [("default_job_units", JVal.int 1)]) []).cache =
      some [("default_job_units", JVal.int 1)] ∧
    ((SettingsState.listKeys
        (SettingsState.mk (some [("default_job_units", JVal.int 1)]) [])
        (Remote.mk [] [])).1 = ["default_job_units"] ∧
      ∀ k, k ∈ (SettingsState.listKeys
        (SettingsState.mk (some [("default_job_units", JVal.int 1)]) [])
        (Remote.mk [] [])).1 ↔ k ∈ ["default_job_units"]) :=
  ⟨rfl, SettingsState.listKeys_cached
    (SettingsState.mk (some [("default_job_units", JVal.int 1)]) [])
    (Remote.mk [] []) [("default_job_units", JVal.int 1)] rfl⟩

/-- Claim C6: for every accepted project id, the resulting project's key is
the string coercion of the parsed numeric id, and each of the six
sub-resources is constructed for the same client and id. -/
theorem Projects.get_project_shape (p : Projects) (v : PyVal) (pid : Nat)
    (h : parse_project_id v = Except.ok pid) :
    ∃ proj, Projects.get p v = Except.ok proj ∧
      proj.key = pyStrNat pid ∧
      proj.jobs = Jobs.mk p.client pid ∧
      proj.spiders = Spiders.mk p.client pid ∧
      proj.activity = Activity.mk p.client pid ∧
      proj.collections = Collections.mk p.client pid ∧
      proj.frontiers = Frontiers.mk p.client pid ∧
      proj.settings = Settings.mk p.client pid := by
  refine ⟨Project.init p.client pid, ?_, rfl, rfl, rfl, rfl, rfl, rfl, rfl⟩
  unfold Projects.get
  rw [h]

theorem Projects.get_project_shape_witness :
    parse_project_id (PyVal.int 123) = Except.ok 123 ∧
    ∃ proj, Projects.get ⟨⟨⟨[123]⟩, ⟨⟨[]⟩⟩⟩⟩ (PyVal.int 123) = Except.ok proj ∧
      proj.key = pyStrNat 123 ∧
      proj.jobs = Jobs.mk ⟨⟨[123]⟩, ⟨⟨[]⟩⟩⟩ 123 ∧
      proj.spiders = Spiders.mk ⟨⟨[123]⟩, ⟨⟨[]⟩⟩⟩ 123 ∧
      proj.activity = Activity.mk ⟨⟨[123]⟩, ⟨⟨[]⟩⟩⟩ 123 ∧
      proj.collections = Collections.mk ⟨⟨[123]⟩, ⟨⟨[]⟩⟩⟩ 123 ∧
      proj.frontiers = Frontiers.mk ⟨⟨[123]⟩, ⟨⟨[]⟩⟩⟩ 123 ∧
      proj.settings = Settings.mk ⟨⟨[123]⟩, ⟨⟨[]⟩⟩⟩ 123 :=
  ⟨rfl, Projects.get_project_shape ⟨⟨⟨[123]⟩, ⟨⟨[]⟩⟩⟩⟩ (PyVal.int 123) 123 rfl⟩

/-- Claim C7: no operation of this layer changes any field of a constructed
`Project` after `__init__` completes — in particular its key is immutable. -/
theorem Config.step_preserves_project (c : Config) (op : LayerOp) :
    (c.step op).proj = c.proj := by
  cases op with
  | setitem k v => rfl
  | save =>
    unfold Config.step
    cases h : c.st.save c.remote with
    | ok q => obtain ⟨st2, r2⟩ := q; rfl
    | error e => rfl
  | expire => rfl
  | liveget k => rfl
  | listKeys => rfl
  | getitem k => rfl

/-- Claim C9: every dictionary returned by `Projects.summary()` has exactly
the keys `project`, `pending`, `running`, `finished`, `has_capacity`. -/
theorem Projects.summary_fixed_keys (p : Projects) (d : List (String × JVal))
    (h : d ∈ Projects.summary p) :
    d.map Prod.fst = ["project", "pending", "running", "finished", "has_capacity"] := by
  unfold Projects.summary HSProjects.jobsummaries at h
  obtain ⟨q, hq, rfl⟩ := List.mem_map.mp h
  rfl

theorem Projects.summary_fixed_keys_witness :
    mkJobSummary 123 0 1 674 true ∈
      Projects.summary ⟨⟨⟨[123]⟩, ⟨⟨[(123, 0, 1, 674, true)]⟩⟩⟩⟩ ∧
    (mkJobSummary 123 0 1 674 true).map Prod.fst =
      ["project", "pending", "running", "finished", "has_capacity"] :=
  ⟨by simp [Projects.summary, HSProjects.jobsummaries],
    Projects.summary_fixed_keys ⟨⟨⟨[123]⟩, ⟨⟨[(123, 0, 1, 674, true)]⟩⟩⟩⟩
      (mkJobSummary 123 0 1 674 true)
      (by simp [Projects.summary, HSProjects.jobsummaries])⟩

/-- Claim C10: `get`, `list`, `iter` and `summary` each leave the `Projects`
object unchanged — it is stateless apart from its client reference. -/
theorem Projects.step_stateless (p : Projects) (op : ProjectsOp) :
    (Projects.step p op).1 = p := by
  cases op <;> rfl
